import Mathlib

/-!
Shallow embedding of the Highlight Reel Compilation client
(frontend/src/pages/ShowcaseCompilation.js) of the GoatSquad repository,
together with a model of the parts of the server-side pipeline contract
that the repository sources do not contain.

Conventions of the embedding:
* JavaScript strings are Lean `String`; a missing or falsy URL value is
  modelled as the empty string (the code only ever tests truthiness of
  these values, and the empty string is the falsy string).
* The JSON body of an HTTP request is modelled as an association list of
  field names to a small JSON value type, so that presence and absence of
  a field is observable.
* React state setters become functional updates of an explicit state
  record; one invocation of an event handler is one step function from
  state (plus the environment it reads: saved videos, the server
  response) to state together with the externally visible effects (the
  HTTP request issued, if any, and the toast error shown, if any).
-/

/-- JSON values, as far as the compile request body needs them. -/
inductive JVal : Type
  | jstr (s : String)
  | jarr (xs : List JVal)

/-- A saved video as the client receives it from userService.getSavedVideos:
an id and a videoUrl (empty string models a missing or falsy URL). -/
structure Video : Type where
  id : Nat
  videoUrl : String
  deriving Repr, DecidableEq

/-- Client component state of ShowcaseCompilation, restricted to the fields
the modelled handlers read or write. -/
structure ClientState : Type where
  outputUri : Option String
  error : Option String
  progress : String
  isLoading : Bool
  selectedVideos : List Nat
  selectedTrack : String
  deriving Repr, DecidableEq

/-- The initial component state: useState(null) for outputUri and error,
empty progress, not loading, no selection, empty selected track. -/
def initialClientState : ClientState :=
  { outputUri := none, error := none, progress := "", isLoading := false,
    selectedVideos := [], selectedTrack := "" }

/-- ShowcaseCompilation.js lines 211-213: the URLs submitted for
compilation are computed by filtering savedVideos by membership of the
video id in selectedVideos and mapping to videoUrl. -/
def selectedVideoUrls (savedVideos : List Video) (selectedVideos : List Nat) :
    List String :=
  (savedVideos.filter (fun video => selectedVideos.contains video.id)).map
    (fun video => video.videoUrl)

/-- ShowcaseCompilation.js lines 225-228: the JSON body posted to
/api/showcase/compile has exactly the fields videoUrls and audioTrack. -/
def compileBody (videoUrls : List String) (audioTrack : String) :
    List (String × JVal) :=
  [("videoUrls", JVal.jarr (videoUrls.map JVal.jstr)),
   ("audioTrack", JVal.jstr audioTrack)]

/-- The server response to the compile POST, as the client distinguishes
it: data.success true with output_uri, data.success false with an optional
message, or a thrown transport error with a message (empty string models a
missing err.message). -/
inductive ServerResponse : Type
  | success (uri : String)
  | failure (message : Option String)
  | httpError (message : String)
  deriving Repr, DecidableEq

/-- Result of one invocation of handleCompileShowcase: the new component
state, the request body that was posted (none when no HTTP request was
issued), and the toast error shown to the user (none when no error toast
appeared). -/
structure CompileOutcome : Type where
  state : ClientState
  request : Option (List (String × JVal))
  toastError : Option String

/-- ShowcaseCompilation.js lines 200-253, handleCompileShowcase. Empty
selection: toast an error and return with nothing changed. Otherwise clear
error, compute the URL list; a falsy URL throws and is caught, setting
error. Otherwise POST the body; a successful response sets outputUri, an
unsuccessful response or transport error is caught, setting error. The
finally block resets isLoading and progress. -/
def handleCompileShowcase (savedVideos : List Video)
    (response : ServerResponse) (s : ClientState) : CompileOutcome :=
  if s.selectedVideos.length = 0 then
    { state := s, request := none,
      toastError := some "Please select at least one video" }
  else
    let urls := selectedVideoUrls savedVideos s.selectedVideos
    if urls.any (fun url => url = "") then
      { state := { s with
          error := some "Some selected videos have invalid URLs",
          isLoading := false,
          progress := "" },
        request := none,
        toastError := some "Some selected videos have invalid URLs" }
    else
      let body := compileBody urls s.selectedTrack
      match response with
      | ServerResponse.success uri =>
          { state := { s with
              error := none,
              outputUri := some uri,
              isLoading := false,
              progress := "" },
            request := some body, toastError := none }
      | ServerResponse.failure message =>
          let m := message.getD "Failed to compile showcase"
          { state := { s with
              error := some m,
              isLoading := false,
              progress := "" },
            request := some body, toastError := some m }
      | ServerResponse.httpError message =>
          let m := if message = "" then "Failed to compile showcase" else message
          { state := { s with
              error := some m,
              isLoading := false,
              progress := "" },
            request := some body, toastError := some m }

/-- ShowcaseCompilation.js line 112: the MIME types accepted for a custom
music upload. -/
def validTypes : List String :=
  ["audio/mpeg", "audio/wav", "audio/m4a", "audio/aac"]

/-- What handleFileSelect does with an offered file: reject on type,
reject on size, or send the upload request. -/
inductive UploadAction : Type
  | rejectType
  | rejectSize
  | sendUpload
  deriving Repr, DecidableEq

/-- ShowcaseCompilation.js lines 107-138, handleFileSelect: the type check
runs first, then the 16 MB size check, and only then is the POST issued. -/
def handleFileSelect (fileType : String) (fileSize : Nat) : UploadAction :=
  if validTypes.contains fileType then
    if fileSize > 16 * 1024 * 1024 then UploadAction.rejectSize
    else UploadAction.sendUpload
  else UploadAction.rejectType

/-- An HTTP request header set, restricted to the Authorization header. -/
structure HttpRequest : Type where
  url : String
  authorization : Option String
  deriving Repr, DecidableEq

/-- ShowcaseCompilation.js lines 90-97: the GET that lists custom tracks,
with its Authorization header built from the stored auth token. -/
def loadCustomTracksRequest (backendUrl token : String) : HttpRequest :=
  { url := backendUrl ++ "/api/custom-music",
    authorization := some ("Bearer " ++ token) }

/-- ShowcaseCompilation.js lines 129-138: the POST that uploads a custom
track, with its Authorization header built from the stored auth token. -/
def uploadMusicRequest (backendUrl token : String) : HttpRequest :=
  { url := backendUrl ++ "/api/custom-music",
    authorization := some ("Bearer " ++ token) }

/-- ShowcaseCompilation.js lines 223-234: the POST that submits a
compilation, with its Authorization header built from the stored auth
token. -/
def compileRequest (backendUrl token : String) : HttpRequest :=
  { url := backendUrl ++ "/api/showcase/compile",
    authorization := some ("Bearer " ++ token) }

/-- ShowcaseCompilation.js lines 156-164, handleVideoSelect: clicking a
video id toggles it, removing it via filter when present and appending it
otherwise. -/
def handleVideoSelect (prev : List Nat) (videoId : Nat) : List Nat :=
  if prev.contains videoId then prev.filter (fun id => id != videoId)
  else prev ++ [videoId]

/-- The selection state reached from the empty initial selection by a
sequence of video-select clicks. -/
def selectionAfter (clicks : List Nat) : List Nat :=
  clicks.foldl handleVideoSelect []

/-- Modelled from the spec: the quality to resolution mapping of the
server-side Video Composer is not among the repository sources (only the
client is); sections 4.4 and 8 of the spec give fast to 480p, standard to
720p, high to 1080p. -/
def qualityResolution (quality : String) : Option Nat :=
  if quality = "fast" then some 480
  else if quality = "standard" then some 720
  else if quality = "high" then some 1080
  else none

/-- Outcome of submission-time quality validation: a job is created at the
mapped resolution, or the request is rejected with invalid-quality. -/
inductive QualityCheck : Type
  | accepted (resolution : Nat)
  | invalidQuality
  deriving Repr, DecidableEq

/-- Modelled from the spec: submission-time validation of the quality
field rejects, with invalid-quality and before job creation, any value the
mapping does not cover. -/
def validateQuality (quality : String) : QualityCheck :=
  match qualityResolution quality with
  | some resolution => QualityCheck.accepted resolution
  | none => QualityCheck.invalidQuality

/-- Stated from the words of the claim C2 for comparison with the code:
the clip URLs listed in the order the user selected the videos, each
selected id resolved through savedVideos. -/
def selectionOrderUrls (savedVideos : List Video) (selectedVideos : List Nat) :
    List String :=
  selectedVideos.filterMap (fun selId =>
    (savedVideos.find? (fun video => video.id = selId)).map
      (fun video => video.videoUrl))

/-- Audio preview state of the ShowcaseCompilation component: the selected
background track, the playingPreview state variable, the track id of the
Audio element held in audioRef (none before any preview started), and the
track ids of the Audio elements that are currently audibly playing. -/
structure AudioState : Type where
  selectedTrack : String
  playingPreview : Option String
  audioRef : Option String
  playing : List String
  deriving Repr, DecidableEq

/-- The audio state on mount: no selection, no preview, no Audio element. -/
def initialAudioState : AudioState :=
  { selectedTrack := "", playingPreview := none, audioRef := none,
    playing := [] }

/-- Pausing the Audio element held in audioRef removes its track id from
the playing elements; with no element held, nothing changes. -/
def pauseRef (s : AudioState) : List String :=
  match s.audioRef with
  | some a => s.playing.erase a
  | none => s.playing

/-- User-interface events touching audio previews: clicking the preview
button of a track, clicking the select button of a track, and the ended
event fired by the Audio element in audioRef when its playback finishes
(a paused element never fires it). -/
inductive AudioEvent : Type
  | previewPlay (trackId : String)
  | trackSelect (trackId : String)
  | ended
  deriving Repr, DecidableEq

/-- ShowcaseCompilation.js lines 166-198 and 190. handlePreviewPlay:
clicking the playing track pauses audioRef and clears playingPreview;
clicking another track pauses audioRef if present, creates and plays a new
Audio element for the track, stores it in audioRef and records it in
playingPreview. handleTrackSelect: stores the selection and, when an
Audio element exists, pauses it and clears playingPreview. The ended
listener clears playingPreview once the current element finishes. The
model takes audio.play() to succeed; a rejected play only means fewer
elements audibly playing. -/
def audioStep (s : AudioState) (e : AudioEvent) : AudioState :=
  match e with
  | AudioEvent.previewPlay trackId =>
      if s.playingPreview = some trackId then
        { s with
            playing := pauseRef s,
            playingPreview := none }
      else
        { s with
            playing := pauseRef s ++ [trackId],
            audioRef := some trackId,
            playingPreview := some trackId }
  | AudioEvent.trackSelect trackId =>
      match s.audioRef with
      | some _ =>
          { s with
              selectedTrack := trackId,
              playing := pauseRef s,
              playingPreview := none }
      | none => { s with selectedTrack := trackId }
  | AudioEvent.ended =>
      match s.audioRef with
      | some a =>
          { s with
              playing := s.playing.erase a,
              playingPreview := none }
      | none => s

/-- The audio state reached from mount by a sequence of events. -/
def audioRun (events : List AudioEvent) : AudioState :=
  events.foldl audioStep initialAudioState

/-- Invariant tying the audibly playing elements to audioRef: nothing is
playing, or exactly the element held in audioRef is playing; and a set
playingPreview implies an Audio element was created and stored in
audioRef. -/
def AudioInv (s : AudioState) : Prop :=
  (s.playing = [] ∨ ∃ a, s.audioRef = some a ∧ s.playing = [a]) ∧
  (s.audioRef = none → s.playingPreview = none)

/-! Theorems. -/

/-- Claim C4: an offered custom-track file leads to an upload request only
when its MIME type is one of audio/mpeg, audio/wav, audio/m4a, audio/aac
and its size is at most 16 MiB; a failing type check rejects before any
request with an unsupported-type error, and a passing type check with an
oversize file rejects before any request with a too-large error. -/
theorem upload_validation_gate (fileType : String) (fileSize : Nat) :
    (handleFileSelect fileType fileSize = UploadAction.sendUpload ↔
      fileType ∈ validTypes ∧ fileSize ≤ 16 * 1024 * 1024) ∧
    (fileType ∉ validTypes →
      handleFileSelect fileType fileSize = UploadAction.rejectType) ∧
    (fileType ∈ validTypes → 16 * 1024 * 1024 < fileSize →
      handleFileSelect fileType fileSize = UploadAction.rejectSize) := by
  have hc : validTypes.contains fileType = true ↔ fileType ∈ validTypes :=
    List.elem_iff
  unfold handleFileSelect
  by_cases ht : fileType ∈ validTypes
  · rw [if_pos (hc.mpr ht)]
    by_cases hs : fileSize > 16 * 1024 * 1024
    · rw [if_pos hs]
      refine ⟨⟨fun h => by simp at h, fun h => by omega⟩,
        fun h => absurd ht h, fun _ _ => rfl⟩
    · rw [if_neg hs]
      exact ⟨⟨fun _ => ⟨ht, by omega⟩, fun _ => rfl⟩,
        fun h => absurd ht h, fun _ h2 => absurd h2 hs⟩
  · rw [if_neg (fun hcc => ht (hc.mp hcc))]
    exact ⟨⟨fun h => by simp at h, fun h => absurd h.1 ht⟩,
      fun _ => rfl, fun h1 _ => absurd h1 ht⟩

/-- Witness for upload_validation_gate at concrete files: a text file is
rejected on type, a 20 MiB wav file is rejected on size, and a small wav
file is uploaded. -/
theorem upload_validation_gate_witness :
    handleFileSelect "text/plain" 16 = UploadAction.rejectType ∧
    handleFileSelect "audio/wav" (20 * 1024 * 1024) = UploadAction.rejectSize ∧
    handleFileSelect "audio/wav" 16 = UploadAction.sendUpload :=
  ⟨(upload_validation_gate "text/plain" 16).2.1 (by decide),
   (upload_validation_gate "audio/wav" (20 * 1024 * 1024)).2.2 (by decide)
     (by decide),
   (upload_validation_gate "audio/wav" 16).1.mpr ⟨by decide, by decide⟩⟩

/-- Claim C7: the custom-track listing, the custom-track upload, and the
compilation submission each carry an Authorization header holding the
bearer form of the stored auth token. -/
theorem pipeline_requests_authorized (backendUrl token : String) :
    (loadCustomTracksRequest backendUrl token).authorization =
      some ("Bearer " ++ token) ∧
    (uploadMusicRequest backendUrl token).authorization =
      some ("Bearer " ++ token) ∧
    (compileRequest backendUrl token).authorization =
      some ("Bearer " ++ token) :=
  ⟨rfl, rfl, rfl⟩

/-- Claim C6: the quality mapping is total and exhaustive over fast,
standard and high, sending them to 480, 720 and 1080 respectively, and
submission-time validation rejects every other value with
invalid-quality. -/
theorem quality_mapping_total_exhaustive :
    qualityResolution "fast" = some 480 ∧
    qualityResolution "standard" = some 720 ∧
    qualityResolution "high" = some 1080 ∧
    ∀ quality : String, quality ∉ (["fast", "standard", "high"] : List String) →
      validateQuality quality = QualityCheck.invalidQuality := by
  refine ⟨rfl, rfl, rfl, fun quality hq => ?_⟩
  have h1 : quality ≠ "fast" := fun h => hq (by rw [h]; simp)
  have h2 : quality ≠ "standard" := fun h => hq (by rw [h]; simp)
  have h3 : quality ≠ "high" := fun h => hq (by rw [h]; simp)
  simp [validateQuality, qualityResolution, h1, h2, h3]

/-- Witness for quality_mapping_total_exhaustive at the concrete rejected
value ultra. -/
theorem quality_mapping_total_exhaustive_witness :
    validateQuality "ultra" = QualityCheck.invalidQuality :=
  quality_mapping_total_exhaustive.2.2.2 "ultra" (by decide)

/-- Counterexample to claim C1 as stated: a concrete compilation
submission whose request body has exactly the keys videoUrls and
audioTrack, so it contains no quality, originalVolume or musicVolume
field. -/
theorem compile_request_no_quality_fields :
    (((handleCompileShowcase [⟨1, "u1"⟩] (ServerResponse.success "out")
        { initialClientState with selectedVideos := [1] }).request.getD
          []).map Prod.fst = ["videoUrls", "audioTrack"]) ∧
    "quality" ∉ ((handleCompileShowcase [⟨1, "u1"⟩] (ServerResponse.success "out")
        { initialClientState with selectedVideos := [1] }).request.getD
          []).map Prod.fst ∧
    "originalVolume" ∉ ((handleCompileShowcase [⟨1, "u1"⟩]
        (ServerResponse.success "out")
        { initialClientState with selectedVideos := [1] }).request.getD
          []).map Prod.fst ∧
    "musicVolume" ∉ ((handleCompileShowcase [⟨1, "u1"⟩]
        (ServerResponse.success "out")
        { initialClientState with selectedVideos := [1] }).request.getD
          []).map Prod.fst := by
  refine ⟨rfl, ?_, ?_, ?_⟩ <;> decide

/-- Claim C1 as amended: every compilation submission issued by the client
carries a body with exactly the fields videoUrls, holding the submitted
URL array, and audioTrack, holding the selected track; no quality,
originalVolume or musicVolume field is sent. -/
theorem compile_request_fields (saved : List Video) (resp : ServerResponse)
    (s : ClientState) (body : List (String × JVal))
    (h : (handleCompileShowcase saved resp s).request = some body) :
    body.map Prod.fst = ["videoUrls", "audioTrack"] ∧
    body.lookup "videoUrls" =
      some (JVal.jarr ((selectedVideoUrls saved s.selectedVideos).map JVal.jstr)) ∧
    body.lookup "audioTrack" = some (JVal.jstr s.selectedTrack) ∧
    "quality" ∉ body.map Prod.fst ∧
    "originalVolume" ∉ body.map Prod.fst ∧
    "musicVolume" ∉ body.map Prod.fst := by
  have hbody : body = compileBody (selectedVideoUrls saved s.selectedVideos)
      s.selectedTrack := by
    by_cases h0 : s.selectedVideos.length = 0
    · simp [handleCompileShowcase, h0] at h
    · by_cases h1 : (selectedVideoUrls saved s.selectedVideos).any
          (fun url => url = "")
      · simp [handleCompileShowcase, h0, h1] at h
      · cases resp <;>
          · simp [handleCompileShowcase, h0, h1] at h
            exact h.symm
  subst hbody
  have hkeys : (compileBody (selectedVideoUrls saved s.selectedVideos)
      s.selectedTrack).map Prod.fst = ["videoUrls", "audioTrack"] := rfl
  rw [hkeys]
  refine ⟨rfl, ?_, ?_, by decide, by decide, by decide⟩ <;>
    simp [compileBody, List.lookup]

/-- Witness for compile_request_fields at a concrete submission. -/
theorem compile_request_fields_witness :
    (compileBody ["u1"] "").map Prod.fst = ["videoUrls", "audioTrack"] ∧
    (compileBody ["u1"] "").lookup "videoUrls" =
      some (JVal.jarr ((selectedVideoUrls [⟨1, "u1"⟩] [1]).map JVal.jstr)) ∧
    (compileBody ["u1"] "").lookup "audioTrack" = some (JVal.jstr "") ∧
    "quality" ∉ (compileBody ["u1"] "").map Prod.fst ∧
    "originalVolume" ∉ (compileBody ["u1"] "").map Prod.fst ∧
    "musicVolume" ∉ (compileBody ["u1"] "").map Prod.fst :=
  compile_request_fields [⟨1, "u1"⟩] (ServerResponse.success "o")
    { initialClientState with selectedVideos := [1] } (compileBody ["u1"] "") rfl

/-- Counterexample to claim C2 as stated: with saved videos 1 and 2
selected in the order 2 then 1, the submitted URL list follows the saved
list's order, not the selection order. -/
theorem selection_order_not_preserved :
    selectedVideoUrls [⟨1, "u1"⟩, ⟨2, "u2"⟩] [2, 1] = ["u1", "u2"] ∧
    selectionOrderUrls [⟨1, "u1"⟩, ⟨2, "u2"⟩] [2, 1] = ["u2", "u1"] ∧
    selectedVideoUrls [⟨1, "u1"⟩, ⟨2, "u2"⟩] [2, 1] ≠
      selectionOrderUrls [⟨1, "u1"⟩, ⟨2, "u2"⟩] [2, 1] := by
  refine ⟨rfl, rfl, ?_⟩
  decide

/-- Claim C2 as amended: the submitted URL list is the selected videos in
the order they appear in the saved-videos list, a sublist of that list's
URLs, and it holds exactly the URLs of saved videos whose id is selected
(nothing dropped, nothing added). -/
theorem submitted_urls_follow_saved_order (saved : List Video)
    (sel : List Nat) :
    (selectedVideoUrls saved sel).Sublist (saved.map (fun v => v.videoUrl)) ∧
    (∀ url : String, url ∈ selectedVideoUrls saved sel ↔
      ∃ v ∈ saved, v.id ∈ sel ∧ v.videoUrl = url) := by
  constructor
  · exact List.Sublist.map _ (List.filter_sublist saved)
  · intro url
    simp only [selectedVideoUrls, List.mem_map, List.mem_filter,
      List.elem_iff]
    constructor
    · rintro ⟨v, ⟨hv, hsel⟩, hurl⟩
      exact ⟨v, hv, hsel, hurl⟩
    · rintro ⟨v, hv, hsel, hurl⟩
      exact ⟨v, ⟨hv, hsel⟩, hurl⟩

/-- Witness for submitted_urls_follow_saved_order at a concrete saved list
and selection. -/
theorem submitted_urls_follow_saved_order_witness :
    (selectedVideoUrls [⟨1, "u1"⟩, ⟨2, "u2"⟩] [2, 1]).Sublist
      (([⟨1, "u1"⟩, ⟨2, "u2"⟩] : List Video).map (fun v => v.videoUrl)) ∧
    "u2" ∈ selectedVideoUrls [⟨1, "u1"⟩, ⟨2, "u2"⟩] [2, 1] :=
  ⟨(submitted_urls_follow_saved_order [⟨1, "u1"⟩, ⟨2, "u2"⟩] [2, 1]).1,
   ((submitted_urls_follow_saved_order [⟨1, "u1"⟩, ⟨2, "u2"⟩] [2, 1]).2
       "u2").mpr ⟨⟨2, "u2"⟩, by decide, by decide, rfl⟩⟩

/-- Claim C5: a compile attempt with an empty selection changes nothing:
the component state is returned untouched, no HTTP request is issued, and
an error toast is shown to the user. -/
theorem empty_selection_no_request (saved : List Video)
    (resp : ServerResponse) (s : ClientState) (h : s.selectedVideos = []) :
    (handleCompileShowcase saved resp s).state = s ∧
    (handleCompileShowcase saved resp s).request = none ∧
    (handleCompileShowcase saved resp s).toastError =
      some "Please select at least one video" := by
  have h0 : s.selectedVideos.length = 0 := by rw [h]; rfl
  simp [handleCompileShowcase, h0]

/-- Witness for empty_selection_no_request at the initial state. -/
theorem empty_selection_no_request_witness :
    (handleCompileShowcase [] (ServerResponse.success "o")
      initialClientState).state = initialClientState ∧
    (handleCompileShowcase [] (ServerResponse.success "o")
      initialClientState).request = none ∧
    (handleCompileShowcase [] (ServerResponse.success "o")
      initialClientState).toastError =
      some "Please select at least one video" :=
  empty_selection_no_request [] (ServerResponse.success "o")
    initialClientState rfl

/-- Claim C9: when a selected saved video has a falsy videoUrl, the
compile handler sets the error state to the invalid-URL message, issues no
HTTP request, and leaves outputUri untouched. -/
theorem invalid_url_blocks_request (saved : List Video)
    (resp : ServerResponse) (s : ClientState)
    (h : ∃ v ∈ saved, v.id ∈ s.selectedVideos ∧ v.videoUrl = "") :
    (handleCompileShowcase saved resp s).state.error =
      some "Some selected videos have invalid URLs" ∧
    (handleCompileShowcase saved resp s).request = none ∧
    (handleCompileShowcase saved resp s).state.outputUri = s.outputUri := by
  obtain ⟨v, hv, hsel, hurl⟩ := h
  have h0 : ¬ s.selectedVideos.length = 0 := by
    intro hlen
    rw [List.length_eq_zero] at hlen
    rw [hlen] at hsel
    exact absurd hsel (List.not_mem_nil _)
  have h1 : (selectedVideoUrls saved s.selectedVideos).any
      (fun url => url = "") = true := by
    rw [List.any_eq_true]
    refine ⟨v.videoUrl, ?_, by simp [hurl]⟩
    simp only [selectedVideoUrls, List.mem_map, List.mem_filter,
      List.elem_iff]
    exact ⟨v, ⟨hv, hsel⟩, rfl⟩
  simp [handleCompileShowcase, h0, h1]

/-- Witness for invalid_url_blocks_request at a saved video with an empty
URL that is selected. -/
theorem invalid_url_blocks_request_witness :
    (handleCompileShowcase [⟨1, ""⟩] (ServerResponse.success "o")
      { initialClientState with selectedVideos := [1] }).state.error =
      some "Some selected videos have invalid URLs" ∧
    (handleCompileShowcase [⟨1, ""⟩] (ServerResponse.success "o")
      { initialClientState with selectedVideos := [1] }).request = none ∧
    (handleCompileShowcase [⟨1, ""⟩] (ServerResponse.success "o")
      { initialClientState with selectedVideos := [1] }).state.outputUri =
      { initialClientState with selectedVideos := [1] : ClientState }.outputUri :=
  invalid_url_blocks_request [⟨1, ""⟩] (ServerResponse.success "o")
    { initialClientState with selectedVideos := [1] }
    ⟨⟨1, ""⟩, by decide, by decide, rfl⟩

/-- Counterexample to claim C3 as stated: a successful compile followed by
a failed compile leaves outputUri from the success and error from the
failure set at the same time. -/
theorem output_and_error_both_set :
    ((handleCompileShowcase [⟨1, "u1"⟩] (ServerResponse.httpError "boom")
        (handleCompileShowcase [⟨1, "u1"⟩] (ServerResponse.success "out")
          { initialClientState with
              selectedVideos := [1] }).state).state.outputUri = some "out") ∧
    ((handleCompileShowcase [⟨1, "u1"⟩] (ServerResponse.httpError "boom")
        (handleCompileShowcase [⟨1, "u1"⟩] (ServerResponse.success "out")
          { initialClientState with
              selectedVideos := [1] }).state).state.error = some "boom") := by
  constructor <;> rfl

/-- Claim C3 as amended: with a non-empty selection and no falsy URL, a
successful compile sets outputUri to the returned URI and leaves error
null, while a failed compile sets error and leaves outputUri unchanged,
so outputUri may persist from an earlier success and both fields can be
set at once. -/
theorem compile_terminal_state (saved : List Video) (resp : ServerResponse)
    (s : ClientState) (hsel : ¬ s.selectedVideos.length = 0)
    (hurls : (selectedVideoUrls saved s.selectedVideos).any
      (fun url => url = "") = false) :
    (∀ uri, resp = ServerResponse.success uri →
      (handleCompileShowcase saved resp s).state.outputUri = some uri ∧
      (handleCompileShowcase saved resp s).state.error = none) ∧
    ((∀ uri, resp ≠ ServerResponse.success uri) →
      (handleCompileShowcase saved resp s).state.error.isSome = true ∧
      (handleCompileShowcase saved resp s).state.outputUri = s.outputUri) := by
  constructor
  · rintro uri rfl
    simp [handleCompileShowcase, hsel, hurls]
  · intro hne
    cases resp with
    | success uri => exact absurd rfl (hne uri)
    | failure message => constructor <;> simp [handleCompileShowcase, hsel, hurls]
    | httpError message => constructor <;> simp [handleCompileShowcase, hsel, hurls]

/-- Witness for compile_terminal_state at a concrete successful compile. -/
theorem compile_terminal_state_witness :
    (handleCompileShowcase [⟨1, "u1"⟩] (ServerResponse.success "out")
      { initialClientState with selectedVideos := [1] }).state.outputUri =
      some "out" ∧
    (handleCompileShowcase [⟨1, "u1"⟩] (ServerResponse.success "out")
      { initialClientState with selectedVideos := [1] }).state.error = none :=
  (compile_terminal_state [⟨1, "u1"⟩] (ServerResponse.success "out")
    { initialClientState with selectedVideos := [1] } (by decide)
    (by decide)).1 "out" rfl

theorem handleVideoSelect_nodup {l : List Nat} (h : l.Nodup) (videoId : Nat) :
    (handleVideoSelect l videoId).Nodup := by
  unfold handleVideoSelect
  by_cases hc : l.contains videoId = true
  · rw [if_pos hc]
    exact h.filter _
  · rw [if_neg hc]
    have hm : videoId ∉ l := fun hmem => hc (List.elem_iff.mpr hmem)
    simp [List.nodup_append, h, hm]

theorem selectionAfter_nodup (clicks : List Nat) :
    (selectionAfter clicks).Nodup := by
  suffices h : ∀ l : List Nat, l.Nodup →
      (clicks.foldl handleVideoSelect l).Nodup by
    exact h [] List.nodup_nil
  induction clicks with
  | nil => exact fun l hl => hl
  | cons c cs ih => exact fun l hl => ih _ (handleVideoSelect_nodup hl c)

/-- Claim C8: every selection reachable from the empty selection by clicks
has no duplicate ids; clicking an id not in it appends the id at the end,
and clicking an id in it erases exactly that id, a sublist of the previous
selection so the relative order of the others is unchanged. -/
theorem video_selection_toggle (clicks : List Nat) (videoId : Nat) :
    (selectionAfter clicks).Nodup ∧
    handleVideoSelect (selectionAfter clicks) videoId =
      (if videoId ∈ selectionAfter clicks then
        (selectionAfter clicks).erase videoId
      else selectionAfter clicks ++ [videoId]) ∧
    ((selectionAfter clicks).erase videoId).Sublist (selectionAfter clicks) := by
  have hnd := selectionAfter_nodup clicks
  refine ⟨hnd, ?_, List.erase_sublist videoId (selectionAfter clicks)⟩
  unfold handleVideoSelect
  by_cases hm : videoId ∈ selectionAfter clicks
  · rw [if_pos (List.elem_iff.mpr hm), if_pos hm,
      List.Nodup.erase_eq_filter hnd]
  · rw [if_neg (fun hc => hm (List.elem_iff.mp hc)), if_neg hm]

theorem pauseRef_eq_nil {s : AudioState} (h : AudioInv s) : pauseRef s = [] := by
  unfold pauseRef
  cases href : s.audioRef with
  | none =>
    rcases h.1 with hp | ⟨a, ha, _⟩
    · exact hp
    · rw [href] at ha
      cases ha
  | some a =>
    rcases h.1 with hp | ⟨b, hb, hpl⟩
    · rw [hp]
      rfl
    · rw [href] at hb
      injection hb with hab
      rw [hpl, hab]
      simp

theorem audioInv_step (s : AudioState) (e : AudioEvent) (h : AudioInv s) :
    AudioInv (audioStep s e) := by
  cases e with
  | previewPlay trackId =>
    simp only [audioStep]
    by_cases hp : s.playingPreview = some trackId
    · rw [if_pos hp]
      exact ⟨Or.inl (pauseRef_eq_nil h), fun _ => rfl⟩
    · rw [if_neg hp]
      refine ⟨Or.inr ⟨trackId, rfl, ?_⟩, fun hc => by cases hc⟩
      rw [pauseRef_eq_nil h]
      rfl
  | trackSelect trackId =>
    simp only [audioStep]
    cases href : s.audioRef with
    | some a =>
      exact ⟨Or.inl (pauseRef_eq_nil h), fun _ => rfl⟩
    | none =>
      refine ⟨?_, fun _ => h.2 href⟩
      rcases h.1 with hp | ⟨b, hb, hpl⟩
      · exact Or.inl hp
      · rw [href] at hb
        cases hb
  | ended =>
    simp only [audioStep]
    cases href : s.audioRef with
    | some a =>
      refine ⟨Or.inl ?_, fun hc => by cases hc⟩
      rcases h.1 with hp | ⟨b, hb, hpl⟩
      · rw [hp]
        rfl
      · rw [href] at hb
        injection hb with hab
        rw [hpl, hab]
        simp
    | none => exact h

theorem audioInv_run (events : List AudioEvent) : AudioInv (audioRun events) := by
  suffices h : ∀ s, AudioInv s → AudioInv (events.foldl audioStep s) by
    exact h initialAudioState ⟨Or.inl rfl, fun _ => rfl⟩
  induction events with
  | nil => exact fun s hs => hs
  | cons e es ih => exact fun s hs => ih _ (audioInv_step s e hs)

/-- Claim C10: after any event sequence at most one preview audio element
is playing; clicking the preview of the playing track stops all playback
and clears playingPreview; clicking the preview of another track leaves
exactly the new track playing (the old one is paused first); selecting a
track stops all playback and clears playingPreview. -/
theorem preview_playback_exclusive (events : List AudioEvent)
    (trackId : String) :
    (audioRun events).playing.length ≤ 1 ∧
    ((audioRun events).playingPreview = some trackId →
      (audioStep (audioRun events) (AudioEvent.previewPlay trackId)).playing
        = [] ∧
      (audioStep (audioRun events)
        (AudioEvent.previewPlay trackId)).playingPreview = none) ∧
    ((audioRun events).playingPreview ≠ some trackId →
      (audioStep (audioRun events) (AudioEvent.previewPlay trackId)).playing
        = [trackId] ∧
      (audioStep (audioRun events)
        (AudioEvent.previewPlay trackId)).playingPreview = some trackId) ∧
    (audioStep (audioRun events) (AudioEvent.trackSelect trackId)).playing
      = [] ∧
    (audioStep (audioRun events)
      (AudioEvent.trackSelect trackId)).playingPreview = none := by
  have hinv := audioInv_run events
  refine ⟨?_, ?_, ?_, ?_, ?_⟩
  · rcases hinv.1 with hp | ⟨a, _, hp⟩ <;> rw [hp] <;> simp
  · intro hp
    simp only [audioStep]
    rw [if_pos hp]
    exact ⟨pauseRef_eq_nil hinv, rfl⟩
  · intro hp
    simp only [audioStep]
    rw [if_neg hp]
    refine ⟨?_, rfl⟩
    show pauseRef (audioRun events) ++ [trackId] = [trackId]
    rw [pauseRef_eq_nil hinv]
    rfl
  · simp only [audioStep]
    cases href : (audioRun events).audioRef with
    | some a => exact pauseRef_eq_nil hinv
    | none =>
      show (audioRun events).playing = []
      rcases hinv.1 with hp | ⟨a, ha, _⟩
      · exact hp
      · rw [href] at ha
        cases ha
  · simp only [audioStep]
    cases href : (audioRun events).audioRef with
    | some a => rfl
    | none =>
      show (audioRun events).playingPreview = none
      exact hinv.2 href

/-- Witness for preview_playback_exclusive: after starting the preview of
track a, clicking the preview of track a again leaves nothing playing and
clears playingPreview. -/
theorem preview_playback_exclusive_witness :
    (audioStep (audioRun [AudioEvent.previewPlay "a"])
      (AudioEvent.previewPlay "a")).playing = [] ∧
    (audioStep (audioRun [AudioEvent.previewPlay "a"])
      (AudioEvent.previewPlay "a")).playingPreview = none :=
  (preview_playback_exclusive [AudioEvent.previewPlay "a"] "a").2.1 rfl
